import Mathlib

/-
Verification of the rustis in-memory key-value server.

This file shallowly embeds the RESP wire codec (src/parsers/resp_data.rs),
the RDB snapshot decoder (src/parsers/rdb.rs, src/database.rs), the command
handlers (src/connection.rs) and the event-loop bookkeeping (src/server.rs)
as executable Lean definitions, and proves or refutes the specification
claims about them.  Bytes are modelled as natural numbers (all concrete
byte values are < 256); byte strings are lists of naturals.
-/

namespace Rustis

/-- The two-byte CRLF terminator 0x0D 0x0A. -/
def CRLFB : List Nat := [13, 10]

/-- usize::MAX for the 64-bit targets the server is built for. -/
def USIZE_MAX : Nat := 2 ^ 64 - 1

/-- RESP terms, from the RESPData enum in src/resp.rs.  The commented-out
RESP-3 variants of the source are absent here as they are never produced. -/
inductive RESPData where
  | simpleString : List Nat → RESPData
  | simpleError : List Nat → RESPData
  | bulkString : List Nat → RESPData
  | array : List RESPData → RESPData
deriving Repr

/-- Model of nom take_until(CRLF) followed by tag(CRLF): splits the input at
the first occurrence of 0x0D 0x0A, dropping the terminator; fails when no
CRLF occurs. -/
def takeUntilCRLF : List Nat → Option (List Nat × List Nat)
  | [] => none
  | a :: rest =>
    if a = 13 ∧ rest.head? = some 10 then some ([], rest.tail)
    else
      match takeUntilCRLF rest with
      | some (pre, rem) => some (a :: pre, rem)
      | none => none

/-- ASCII decimal digit test, as used by nom digit1. -/
def isDigit (b : Nat) : Bool := 48 ≤ b && b ≤ 57

/-- Model of nom digit1: the maximal nonempty digit prefix and the rest. -/
def digit1 (input : List Nat) : Option (List Nat × List Nat) :=
  let ds := input.takeWhile isDigit
  if ds.isEmpty then none else some (ds, input.dropWhile isDigit)

/-- Numeric value of an ASCII digit string, as str::parse computes it. -/
def digitsVal (ds : List Nat) : Nat := ds.foldl (fun acc d => acc * 10 + (d - 48)) 0

/-- Fuelled core of the decimal rendering of a natural number. -/
def natToDigitsAux : Nat → Nat → List Nat
  | 0, _ => []
  | fuel + 1, n => if n < 10 then [48 + n] else natToDigitsAux fuel (n / 10) ++ [48 + n % 10]

/-- ASCII decimal rendering of a natural number (the format! "{}" rendering
used by the response encoders in src/connection.rs). -/
def natToDigits (n : Nat) : List Nat := natToDigitsAux (n + 1) n

/-- Model of nom tag: expects the literal t at the head of the input. -/
def tag (t : List Nat) (input : List Nat) : Option (List Nat) :=
  if input.take t.length = t then some (input.drop t.length) else none

/-- nom_simple_string from src/parsers/resp_data.rs: + text CRLF. -/
def nomSimpleString (input : List Nat) : Option (List Nat × RESPData) :=
  match input with
  | b :: rest =>
    if b = 43 then (takeUntilCRLF rest).map fun p => (p.2, RESPData.simpleString p.1)
    else none
  | [] => none

/-- nom_simple_error from src/parsers/resp_data.rs: - text CRLF. -/
def nomSimpleError (input : List Nat) : Option (List Nat × RESPData) :=
  match input with
  | b :: rest =>
    if b = 45 then (takeUntilCRLF rest).map fun p => (p.2, RESPData.simpleError p.1)
    else none
  | [] => none

/-- nom_bulk_string from src/parsers/resp_data.rs: $ len CRLF bytes CRLF,
where len must parse as a usize. -/
def nomBulkString (input : List Nat) : Option (List Nat × RESPData) :=
  match input with
  | b :: rest =>
    if b = 36 then
    match digit1 rest with
    | some (ds, rest1) =>
      let n := digitsVal ds
      if n ≤ USIZE_MAX then
        match tag CRLFB rest1 with
        | some rest2 =>
          if n ≤ rest2.length then
            match tag CRLFB (rest2.drop n) with
            | some rest3 => some (rest3, RESPData.bulkString (rest2.take n))
            | none => none
          else none
        | none => none
      else none
    | none => none
    else none
  | [] => none

/-- The * count CRLF header of nom_array from src/parsers/resp_data.rs. -/
def arrayHeader (input : List Nat) : Option (Nat × List Nat) :=
  match input with
  | b :: rest =>
    if b = 42 then
    match digit1 rest with
    | some (ds, rest1) =>
      let n := digitsVal ds
      if n ≤ USIZE_MAX then
        match tag CRLFB rest1 with
        | some rest2 => some (n, rest2)
        | none => none
      else none
    | none => none
    else none
  | [] => none

/-- Model of nom count: run the given one-term reader exactly n times. -/
def nomCountAux (nd : List Nat → Option (List Nat × RESPData)) :
    Nat → List Nat → Option (List Nat × List RESPData)
  | 0, input => some (input, [])
  | n + 1, input =>
    match nd input with
    | some (rest, d) =>
      match nomCountAux nd n rest with
      | some (rem, ds) => some (rem, d :: ds)
      | none => none
    | none => none

/-- nom_data from src/parsers/resp_data.rs: alternation of the four term
readers, fuelled to bound the array-nesting depth. -/
def nomData : Nat → List Nat → Option (List Nat × RESPData)
  | 0, _ => none
  | fuel + 1, input =>
    match nomSimpleString input with
    | some r => some r
    | none =>
      match nomSimpleError input with
      | some r => some r
      | none =>
        match nomBulkString input with
        | some r => some r
        | none =>
          match arrayHeader input with
          | some (n, rest) =>
            match nomCountAux (nomData fuel) n rest with
            | some (rem, es) => some (rem, RESPData.array es)
            | none => none
          | none => none

/-- Result of the top-level parse from src/parsers/resp_data.rs: the parsed
term sequence, or the InvalidInput error. -/
inductive ParseResult where
  | ok : List RESPData → ParseResult
  | invalidInput : ParseResult
deriving Repr

/-- The while-loop of parse from src/parsers/resp_data.rs, fuelled by the
iteration count; every successful nom_data call consumes at least one byte,
so fuel equal to the input length never runs out. -/
def parseLoop : Nat → List Nat → ParseResult
  | 0, input => if input.isEmpty then .ok [] else .invalidInput
  | fuel + 1, input =>
    if input.isEmpty then .ok []
    else
      match nomData (input.length + 1) input with
      | some (rest, d) =>
        match parseLoop fuel rest with
        | .ok ds => .ok (d :: ds)
        | .invalidInput => .invalidInput
      | none => .invalidInput

/-- parse from src/parsers/resp_data.rs: consume successive RESP terms until
the buffer is empty, failing with InvalidInput on any nom error. -/
def parse (input : List Nat) : ParseResult := parseLoop input.length input

-- Canonical RESP §4.1 wire encoding of a term, and of a term sequence.
-- The source encodes replies with ad-hoc helpers only; this total encoder
-- realizes the grammar the parser reads.
mutual
/-- Canonical RESP wire encoding of one term. -/
def encode : RESPData → List Nat
  | .simpleString s => 43 :: (s ++ CRLFB)
  | .simpleError s => 45 :: (s ++ CRLFB)
  | .bulkString s => 36 :: (natToDigits s.length ++ CRLFB ++ s ++ CRLFB)
  | .array es => 42 :: (natToDigits es.length ++ CRLFB) ++ encodeList es
/-- Concatenated canonical encodings of a term sequence. -/
def encodeList : List RESPData → List Nat
  | [] => []
  | t :: ts => encode t ++ encodeList ts
end

-- Well-formedness of a wire term per the RESP grammar: simple strings and
-- errors contain no CR and no LF, and every length fits in a machine word.
mutual
/-- Grammar well-formedness of one RESP term. -/
def wf : RESPData → Bool
  | .simpleString s => s.all fun b => !(b = 13) && !(b = 10)
  | .simpleError s => s.all fun b => !(b = 13) && !(b = 10)
  | .bulkString s => decide (s.length ≤ USIZE_MAX)
  | .array es => decide (es.length ≤ USIZE_MAX) && wfList es
/-- Grammar well-formedness of every term in a sequence. -/
def wfList : List RESPData → Bool
  | [] => true
  | t :: ts => wf t && wfList ts
end

mutual
/-- Nesting fuel needed by nomData to read one encoded term. -/
def fuelNeeded : RESPData → Nat
  | .array es => 1 + fuelNeededList es
  | _ => 1
/-- Nesting fuel needed to read an encoded term sequence. -/
def fuelNeededList : List RESPData → Nat
  | [] => 0
  | t :: ts => fuelNeeded t + fuelNeededList ts
end

theorem takeUntilCRLF_append (s r : List Nat) (h : ∀ b ∈ s, b ≠ 13) :
    takeUntilCRLF (s ++ 13 :: 10 :: r) = some (s, r) := by
  induction s with
  | nil => simp [takeUntilCRLF]
  | cons a s ih =>
    have ha : a ≠ 13 := h a (List.mem_cons_self a s)
    simp only [List.cons_append, takeUntilCRLF, List.append_eq]
    rw [if_neg fun hc => ha hc.1]
    rw [ih fun b hb => h b (List.mem_cons_of_mem _ hb)]

theorem takeWhile_append_all {α : Type} {p : α → Bool} (xs ys : List α)
    (h : ∀ x ∈ xs, p x = true) : (xs ++ ys).takeWhile p = xs ++ ys.takeWhile p := by
  induction xs with
  | nil => simp
  | cons a xs ih =>
    simp [List.cons_append, List.takeWhile_cons, h a (List.mem_cons_self a xs),
      ih fun x hx => h x (List.mem_cons_of_mem _ hx)]

theorem dropWhile_append_all {α : Type} {p : α → Bool} (xs ys : List α)
    (h : ∀ x ∈ xs, p x = true) : (xs ++ ys).dropWhile p = ys.dropWhile p := by
  induction xs with
  | nil => simp
  | cons a xs ih =>
    simp only [List.cons_append, List.dropWhile_cons, h a (List.mem_cons_self a xs),
      ih fun x hx => h x (List.mem_cons_of_mem _ hx), if_pos]

theorem digit1_append (ds : List Nat) (b : Nat) (u : List Nat)
    (hds : ∀ x ∈ ds, isDigit x = true) (hne : ds ≠ []) (hb : isDigit b = false) :
    digit1 (ds ++ b :: u) = some (ds, b :: u) := by
  unfold digit1
  rw [takeWhile_append_all ds (b :: u) hds, dropWhile_append_all ds (b :: u) hds]
  simp [List.takeWhile_cons, List.dropWhile_cons, hb, hne]

theorem digitsVal_snoc (l : List Nat) (d : Nat) :
    digitsVal (l ++ [d]) = 10 * digitsVal l + (d - 48) := by
  simp [digitsVal, List.foldl_append, Nat.mul_comm]

theorem natToDigitsAux_spec (fuel : Nat) : ∀ n : Nat, n < fuel →
    (∀ b ∈ natToDigitsAux fuel n, isDigit b = true) ∧
    natToDigitsAux fuel n ≠ [] ∧ digitsVal (natToDigitsAux fuel n) = n := by
  induction fuel with
  | zero => intro n hn; omega
  | succ fuel ih =>
    intro n hn
    by_cases h10 : n < 10
    · refine ⟨?_, ?_, ?_⟩
      · intro b hb
        simp only [natToDigitsAux, if_pos h10, List.mem_singleton] at hb
        subst hb
        simp only [isDigit, Bool.and_eq_true, decide_eq_true_eq]
        exact ⟨by omega, by omega⟩
      · simp [natToDigitsAux, h10]
      · simp only [natToDigitsAux, if_pos h10, digitsVal, List.foldl_cons, List.foldl_nil]
        omega
    · have hdiv : n / 10 < fuel := by
        have h1 : n / 10 < n := Nat.div_lt_self (by omega) (by omega)
        omega
      obtain ⟨hd, hne, hv⟩ := ih (n / 10) hdiv
      have hmod : n % 10 < 10 := Nat.mod_lt _ (by omega)
      refine ⟨?_, ?_, ?_⟩
      · intro b hb
        simp only [natToDigitsAux, if_neg h10, List.mem_append, List.mem_singleton] at hb
        rcases hb with hb | hb
        · exact hd b hb
        · subst hb
          simp only [isDigit, Bool.and_eq_true, decide_eq_true_eq]
          exact ⟨by omega, by omega⟩
      · simp [natToDigitsAux, if_neg h10]
      · simp only [natToDigitsAux, if_neg h10]
        rw [digitsVal_snoc, hv]
        have hdm := Nat.div_add_mod n 10
        omega

theorem natToDigits_spec (n : Nat) :
    (∀ b ∈ natToDigits n, isDigit b = true) ∧
    natToDigits n ≠ [] ∧ digitsVal (natToDigits n) = n :=
  natToDigitsAux_spec (n + 1) n (Nat.lt_succ_self n)

theorem tag_crlf (r : List Nat) : tag [13, 10] (13 :: 10 :: r) = some r := by
  simp [tag]

theorem isDigit_ne_cr {b : Nat} (h : isDigit b = true) : ¬(b = 13) := by
  simp [isDigit] at h; omega

theorem crlf_not_digit : isDigit 13 = false := by decide

theorem digit1_nat (n : Nat) (u : List Nat) :
    digit1 (natToDigits n ++ 13 :: u) = some (natToDigits n, 13 :: u) := by
  obtain ⟨hd, hne, _⟩ := natToDigits_spec n
  exact digit1_append _ _ _ hd hne crlf_not_digit

theorem noCR_of_all (s : List Nat)
    (h : (s.all fun b => !(b = 13) && !(b = 10)) = true) : ∀ b ∈ s, b ≠ 13 := by
  intro b hb
  have hx := List.all_eq_true.mp h b hb
  simp only [Bool.and_eq_true, Bool.not_eq_true', decide_eq_false_iff_not] at hx
  exact hx.1

theorem fuelNeeded_pos (t : RESPData) : 1 ≤ fuelNeeded t := by
  cases t <;> simp [fuelNeeded]

theorem take_append_length {α : Type} (s u : List α) : (s ++ u).take s.length = s := by
  rw [List.take_append_eq_append_take]
  simp

theorem drop_append_length {α : Type} (s u : List α) : (s ++ u).drop s.length = u := by
  rw [List.drop_append_eq_append_drop]
  simp

mutual
/-- Reading one canonically encoded well-formed term with nom_data consumes
exactly its encoding and returns the term. -/
theorem nomData_encode (t : RESPData) (rest : List Nat) (fuel : Nat)
    (hwf : wf t = true) (hfuel : fuelNeeded t ≤ fuel) :
    nomData fuel (encode t ++ rest) = some (rest, t) := by
  obtain ⟨f, rfl⟩ : ∃ f, fuel = f + 1 := by
    have := fuelNeeded_pos t
    cases fuel with
    | zero => omega
    | succ f => exact ⟨f, rfl⟩
  cases t with
  | simpleString s =>
    have hs : ∀ b ∈ s, b ≠ 13 := noCR_of_all s (by simpa [wf] using hwf)
    have htu := takeUntilCRLF_append s rest hs
    simp [encode, CRLFB, nomData, nomSimpleString, htu]
  | simpleError s =>
    have hs : ∀ b ∈ s, b ≠ 13 := noCR_of_all s (by simpa [wf] using hwf)
    have htu := takeUntilCRLF_append s rest hs
    simp [encode, CRLFB, nomData, nomSimpleString, nomSimpleError, htu]
  | bulkString s =>
    have hlen : s.length ≤ USIZE_MAX := by simpa [wf] using hwf
    obtain ⟨_, _, hv⟩ := natToDigits_spec s.length
    have h1 : s.length ≤ (s ++ 13 :: 10 :: rest).length := by simp
    simp [encode, CRLFB, nomData, nomSimpleString, nomSimpleError, nomBulkString,
      digit1_nat, hv, hlen, h1, tag_crlf, take_append_length, drop_append_length]
  | array es =>
    have hwf2 : es.length ≤ USIZE_MAX ∧ wfList es = true := by
      simpa [wf, Bool.and_eq_true] using hwf
    obtain ⟨_, _, hv⟩ := natToDigits_spec es.length
    have hfl : fuelNeededList es ≤ f := by
      simp only [fuelNeeded] at hfuel
      omega
    have hrec := nomCount_encode es rest f hwf2.2 hfl
    simp [encode, CRLFB, nomData, nomSimpleString, nomSimpleError, nomBulkString, arrayHeader,
      digit1_nat, hv, hwf2.1, tag_crlf, hrec]
termination_by sizeOf t

/-- Reading a canonically encoded well-formed term sequence with nom count
consumes exactly the concatenated encodings and returns the sequence. -/
theorem nomCount_encode (es : List RESPData) (rest : List Nat) (fuel : Nat)
    (hwf : wfList es = true) (hfuel : fuelNeededList es ≤ fuel) :
    nomCountAux (nomData fuel) es.length (encodeList es ++ rest) = some (rest, es) := by
  cases es with
  | nil => simp [encodeList, nomCountAux]
  | cons t ts =>
    have hwf2 : wf t = true ∧ wfList ts = true := by
      simpa [wfList, Bool.and_eq_true] using hwf
    have hf1 : fuelNeeded t ≤ fuel := by
      simp only [fuelNeededList] at hfuel
      omega
    have hf2 : fuelNeededList ts ≤ fuel := by
      simp only [fuelNeededList] at hfuel
      omega
    have ih1 := nomData_encode t (encodeList ts ++ rest) fuel hwf2.1 hf1
    have ih2 := nomCount_encode ts rest fuel hwf2.2 hf2
    simp [encodeList, nomCountAux, List.append_assoc, ih1, ih2]
termination_by sizeOf es
end

theorem encode_length_pos (t : RESPData) : 1 ≤ (encode t).length := by
  cases t <;> simp [encode]

mutual
/-- The fuel a term needs is at most the length of its encoding. -/
theorem fuelNeeded_le_encode (t : RESPData) : fuelNeeded t ≤ (encode t).length := by
  cases t with
  | array es =>
    have h := fuelNeededList_le_encodeList es
    simp only [fuelNeeded, encode, List.length_cons, List.length_append]
    omega
  | simpleString s => simp [fuelNeeded, encode]
  | simpleError s => simp [fuelNeeded, encode]
  | bulkString s => simp [fuelNeeded, encode]
termination_by sizeOf t

/-- The fuel a term sequence needs is at most the length of its encoding. -/
theorem fuelNeededList_le_encodeList (es : List RESPData) :
    fuelNeededList es ≤ (encodeList es).length := by
  cases es with
  | nil => simp [fuelNeededList, encodeList]
  | cons t ts =>
    have h1 := fuelNeeded_le_encode t
    have h2 := fuelNeededList_le_encodeList ts
    simp only [fuelNeededList, encodeList, List.length_append]
    omega
termination_by sizeOf es
end

theorem encodeList_length_ge (ts : List RESPData) : ts.length ≤ (encodeList ts).length := by
  induction ts with
  | nil => simp [encodeList]
  | cons t ts ih =>
    have := encode_length_pos t
    simp only [encodeList, List.length_cons, List.length_append]
    omega

theorem encode_append_ne_nil (t : RESPData) (u : List Nat) : encode t ++ u ≠ [] := by
  have := encode_length_pos t
  intro h
  have : (encode t ++ u).length = 0 := by rw [h]; rfl
  simp only [List.length_append] at this
  omega

theorem isEmpty_false_of_ne_nil {a : Type} {l : List a} (h : l ≠ []) : l.isEmpty = false := by
  cases l with
  | nil => exact absurd rfl h
  | cons x l => rfl

theorem parseLoop_encodeList (ts : List RESPData) (fuel : Nat) (hwf : wfList ts = true)
    (hfuel : ts.length ≤ fuel) : parseLoop fuel (encodeList ts) = .ok ts := by
  induction ts generalizing fuel with
  | nil => cases fuel <;> simp [encodeList, parseLoop]
  | cons t ts ih =>
    obtain ⟨f, rfl⟩ : ∃ f, fuel = f + 1 := by
      cases fuel with
      | zero => simp at hfuel
      | succ f => exact ⟨f, rfl⟩
    have hwf2 : wf t = true ∧ wfList ts = true := by
      simpa [wfList, Bool.and_eq_true] using hwf
    have hne : encodeList (t :: ts) ≠ [] := by
      simp only [encodeList]
      exact encode_append_ne_nil t (encodeList ts)
    have hih := ih f hwf2.2 (by simpa using hfuel)
    simp only [parseLoop]
    rw [isEmpty_false_of_ne_nil hne]
    rw [show encodeList (t :: ts) = encode t ++ encodeList ts from rfl]
    have hfu : fuelNeeded t ≤ (encode t ++ encodeList ts).length + 1 := by
      have h1 := fuelNeeded_le_encode t
      simp only [List.length_append]
      omega
    have hnd := nomData_encode t (encodeList ts) ((encode t ++ encodeList ts).length + 1)
      hwf2.1 hfu
    rw [hnd]
    simp [hih]

theorem parseLoop_encodeList_bad (ts : List RESPData) (u : List Nat) (fuel : Nat)
    (hwf : wfList ts = true) (hu : u ≠ []) (hbad : nomData (u.length + 1) u = none)
    (hfuel : ts.length ≤ fuel) : parseLoop fuel (encodeList ts ++ u) = .invalidInput := by
  induction ts generalizing fuel with
  | nil =>
    simp only [encodeList, List.nil_append]
    cases fuel with
    | zero => simp [parseLoop, isEmpty_false_of_ne_nil hu]
    | succ f =>
      simp only [parseLoop]
      rw [isEmpty_false_of_ne_nil hu]
      rw [hbad]
      simp
  | cons t ts ih =>
    obtain ⟨f, rfl⟩ : ∃ f, fuel = f + 1 := by
      cases fuel with
      | zero => simp at hfuel
      | succ f => exact ⟨f, rfl⟩
    have hwf2 : wf t = true ∧ wfList ts = true := by
      simpa [wfList, Bool.and_eq_true] using hwf
    have hne : encodeList (t :: ts) ++ u ≠ [] := by
      rw [show encodeList (t :: ts) ++ u = encode t ++ (encodeList ts ++ u) from by
        simp [encodeList]]
      exact encode_append_ne_nil t (encodeList ts ++ u)
    have hih := ih f hwf2.2 (by simpa using hfuel)
    simp only [parseLoop]
    rw [isEmpty_false_of_ne_nil hne]
    rw [show encodeList (t :: ts) ++ u = encode t ++ (encodeList ts ++ u) from by
      simp [encodeList]]
    have hfu : fuelNeeded t ≤ (encode t ++ (encodeList ts ++ u)).length + 1 := by
      have h1 := fuelNeeded_le_encode t
      simp only [List.length_append]
      omega
    have hnd := nomData_encode t (encodeList ts ++ u)
      ((encode t ++ (encodeList ts ++ u)).length + 1) hwf2.1 hfu
    rw [hnd]
    simp [hih]

/-- C3: for every sequence of well-formed RESP terms, parsing the
concatenation of their encodings yields exactly that sequence with no bytes
left over; and when the buffer instead carries a malformed prefix (ts = [])
or malformed trailing bytes u after the well-formed terms, parse fails with
the InvalidInput error. -/
theorem parse_encodeList (ts : List RESPData) (hwf : wfList ts = true) :
    parse (encodeList ts) = .ok ts :=
  parseLoop_encodeList ts (encodeList ts).length hwf (encodeList_length_ge ts)

theorem c3_pipelining (ts : List RESPData) (u : List Nat) (hwf : wfList ts = true) :
    parse (encodeList ts) = .ok ts ∧
    (u ≠ [] → nomData (u.length + 1) u = none → parse (encodeList ts ++ u) = .invalidInput) := by
  constructor
  · exact parse_encodeList ts hwf
  · intro hu hbad
    refine parseLoop_encodeList_bad ts u (encodeList ts ++ u).length hwf hu hbad ?_
    have := encodeList_length_ge ts
    simp only [List.length_append]
    omega

/-- C3 witness: a pipelined simple string followed by a bulk string parses
back to exactly those two terms, and the same bytes followed by a stray
non-discriminator byte are rejected as InvalidInput. -/
theorem c3_pipelining_witness :
    parse (encodeList [RESPData.simpleString [79, 75], RESPData.bulkString [97, 13, 10, 98]])
      = ParseResult.ok [RESPData.simpleString [79, 75], RESPData.bulkString [97, 13, 10, 98]] ∧
    parse (encodeList [RESPData.simpleString [79, 75], RESPData.bulkString [97, 13, 10, 98]]
        ++ [120]) = ParseResult.invalidInput := by
  constructor
  · exact (c3_pipelining [RESPData.simpleString [79, 75], RESPData.bulkString [97, 13, 10, 98]]
      [120] (by rfl)).1
  · exact (c3_pipelining [RESPData.simpleString [79, 75], RESPData.bulkString [97, 13, 10, 98]]
      [120] (by rfl)).2 (by decide) (by rfl)

/-- parse of the canonical encoding of one well-formed term. -/
theorem parse_encode_single (t : RESPData) (hwf : wf t = true) :
    parse (encode t) = .ok [t] := by
  have h := parse_encodeList [t] (by simp [wfList, hwf])
  simpa [encodeList] using h

/-- write_bulk_string from src/connection.rs: dollar, decimal length, CRLF,
the raw bytes, CRLF. -/
def write_bulk_string (data : List Nat) : List Nat :=
  36 :: (natToDigits data.length ++ CRLFB ++ data ++ CRLFB)

/-- write_array from src/connection.rs: star, decimal element count, CRLF,
then every element rendered as a bulk string. -/
def write_array (array : List (List Nat)) : List Nat :=
  42 :: (natToDigits array.length ++ CRLFB)
    ++ (array.map fun e => 36 :: (natToDigits e.length ++ CRLFB ++ e ++ CRLFB)).flatten

/-- write_error from src/connection.rs: the bytes "-ERR ", the message, CRLF. -/
def write_error (e : List Nat) : List Nat := [45, 69, 82, 82, 32] ++ (e ++ CRLFB)

theorem write_array_eq_encode (ds : List (List Nat)) :
    write_array ds = encode (RESPData.array (ds.map RESPData.bulkString)) := by
  have hjoin : ∀ l : List (List Nat),
      encodeList (l.map RESPData.bulkString)
        = (l.map fun e => 36 :: (natToDigits e.length ++ CRLFB ++ e ++ CRLFB)).flatten := by
    intro l
    induction l with
    | nil => simp [encodeList]
    | cons e l ih => simp [encodeList, encode, ih]
  simp [write_array, encode, hjoin]

theorem wfList_map_bulk (ds : List (List Nat)) (h : ∀ e ∈ ds, e.length ≤ USIZE_MAX) :
    wfList (ds.map RESPData.bulkString) = true := by
  induction ds with
  | nil => simp [wfList]
  | cons e l ih =>
    simp only [List.map_cons, wfList, wf, Bool.and_eq_true, decide_eq_true_eq]
    exact ⟨h e (List.mem_cons_self e l), ih fun x hx => h x (List.mem_cons_of_mem _ hx)⟩

/-- Whether a byte string contains an adjacent CR LF pair - the stopping
condition of the take_until(CRLF) reader. -/
def hasCRLF : List Nat → Bool
  | [] => false
  | a :: rest => if a = 13 ∧ rest.head? = some 10 then true else hasCRLF rest

theorem takeUntilCRLF_noCRLF (s r : List Nat) (h : hasCRLF s = false) :
    takeUntilCRLF (s ++ 13 :: 10 :: r) = some (s, r) := by
  induction s with
  | nil => simp [takeUntilCRLF]
  | cons a s ih =>
    simp only [hasCRLF] at h
    by_cases hc : a = 13 ∧ s.head? = some 10
    · rw [if_pos hc] at h
      exact absurd h (by simp)
    · rw [if_neg hc] at h
      have hc2 : ¬(a = 13 ∧ (s ++ 13 :: 10 :: r).head? = some 10) := by
        intro hx
        cases s with
        | nil => simp at hx
        | cons b s2 => exact hc ⟨hx.1, by simpa using hx.2⟩
      simp only [List.cons_append, takeUntilCRLF, List.append_eq]
      rw [if_neg hc2, ih h]

theorem hasCRLF_split (m : List Nat) (h : hasCRLF m = true) :
    ∃ p q, m = p ++ 13 :: 10 :: q ∧ hasCRLF p = false := by
  induction m with
  | nil => simp [hasCRLF] at h
  | cons a rest ih =>
    simp only [hasCRLF] at h
    by_cases hc : a = 13 ∧ rest.head? = some 10
    · obtain ⟨h13, h10⟩ := hc
      cases rest with
      | nil => simp at h10
      | cons b q =>
        have hb : b = 10 := by simpa using h10
        exact ⟨[], q, by rw [h13, hb]; rfl, rfl⟩
    · rw [if_neg hc] at h
      obtain ⟨p, q, rfl, hp⟩ := ih h
      refine ⟨a :: p, q, rfl, ?_⟩
      have hxne : ¬(a = 13 ∧ p.head? = some 10) := by
        intro hx
        cases p with
        | nil => simp at hx
        | cons c p2 => exact hc ⟨hx.1, by simpa using hx.2⟩
      simp only [hasCRLF, if_neg hxne, hp]

theorem hasCRLF_err_front (p : List Nat) :
    hasCRLF ([69, 82, 82, 32] ++ p) = hasCRLF p := by
  simp [hasCRLF]

theorem parseLoop_nil (fuel : Nat) : parseLoop fuel [] = .ok [] := by
  cases fuel <;> simp [parseLoop]

/-- One unrolled step of the parse loop on a nonempty buffer. -/
theorem parse_cons (b : Nat) (bs : List Nat) :
    parse (b :: bs)
      = match nomData (bs.length + 2) (b :: bs) with
        | some (rest, d) =>
          (match parseLoop bs.length rest with
           | .ok ds => .ok (d :: ds)
           | .invalidInput => .invalidInput)
        | none => .invalidInput := by
  simp [parse, parseLoop]

/-- An error reply whose message has no CR LF pair parses back to exactly
the one simple-error term carrying the ERR prefix and the message. -/
theorem parse_write_error_ok (m : List Nat) (hm : hasCRLF m = false) :
    parse (write_error m) = .ok [.simpleError ([69, 82, 82, 32] ++ m)] := by
  have htu := takeUntilCRLF_noCRLF ([69, 82, 82, 32] ++ m) []
    (by rw [hasCRLF_err_front]; exact hm)
  simp only [List.append_assoc, List.cons_append, List.nil_append] at htu
  rw [show write_error m = 45 :: (69 :: 82 :: 82 :: 32 :: (m ++ [13, 10])) from by
    simp [write_error, CRLFB]]
  rw [parse_cons]
  rw [show (69 :: 82 :: 82 :: 32 :: (m ++ [13, 10])).length + 2
      = ((69 :: 82 :: 82 :: 32 :: (m ++ [13, 10])).length + 1) + 1 from rfl]
  simp [nomData, nomSimpleString, nomSimpleError, htu, parseLoop_nil]

/-- An error reply whose message does contain a CR LF pair never parses back
to the original term: its payload is cut at the first CRLF. -/
theorem parse_write_error_crlf_ne (p q : List Nat) (hp : hasCRLF p = false) :
    parse (write_error (p ++ 13 :: 10 :: q))
      ≠ .ok [.simpleError ([69, 82, 82, 32] ++ (p ++ 13 :: 10 :: q))] := by
  have htu := takeUntilCRLF_noCRLF ([69, 82, 82, 32] ++ p) (q ++ [13, 10])
    (by rw [hasCRLF_err_front]; exact hp)
  simp only [List.append_assoc, List.cons_append, List.nil_append] at htu
  have hstep : parse (write_error (p ++ 13 :: 10 :: q))
      = match parseLoop (69 :: 82 :: 82 :: 32 :: ((p ++ 13 :: 10 :: q) ++ [13, 10])).length
          (q ++ [13, 10]) with
        | .ok ds => .ok (.simpleError ([69, 82, 82, 32] ++ p) :: ds)
        | .invalidInput => .invalidInput := by
    rw [show write_error (p ++ 13 :: 10 :: q)
        = 45 :: (69 :: 82 :: 82 :: 32 :: ((p ++ 13 :: 10 :: q) ++ [13, 10])) from by
      simp [write_error, CRLFB]]
    rw [parse_cons]
    rw [show (69 :: 82 :: 82 :: 32 :: ((p ++ 13 :: 10 :: q) ++ [13, 10])).length + 2
        = ((69 :: 82 :: 82 :: 32 :: ((p ++ 13 :: 10 :: q) ++ [13, 10])).length + 1) + 1 from rfl]
    simp [nomData, nomSimpleString, nomSimpleError, htu]
  rw [hstep]
  cases hres : parseLoop (69 :: 82 :: 82 :: 32 :: ((p ++ 13 :: 10 :: q) ++ [13, 10])).length
      (q ++ [13, 10]) with
  | invalidInput => simp
  | ok ds =>
    intro h
    injection h with h1
    injection h1 with h2 h3
    injection h2 with h4
    have hlen := congrArg List.length h4
    simp only [List.length_append, List.length_cons] at hlen
    omega

/-- C9 (amended): the bulk-string and array encoder helpers of
src/connection.rs round-trip through the parser with byte-equal payloads for
arbitrary binary payload bytes (lengths fitting a machine word); the error
reply round-trips - parsing back to exactly the one simple-error term whose
payload is "ERR " followed by the message - precisely when the message
contains no adjacent CR LF byte pair (lone CR or lone LF bytes are fine);
when the message does contain a CRLF pair, parsing the produced bytes never
returns that term. -/
theorem c9_roundtrip (d : List Nat) (ds : List (List Nat)) (m : List Nat) :
    (d.length ≤ USIZE_MAX → parse (write_bulk_string d) = .ok [.bulkString d]) ∧
    (ds.length ≤ USIZE_MAX → (∀ e ∈ ds, e.length ≤ USIZE_MAX) →
      parse (write_array ds) = .ok [.array (ds.map RESPData.bulkString)]) ∧
    (hasCRLF m = false →
      parse (write_error m) = .ok [.simpleError ([69, 82, 82, 32] ++ m)]) ∧
    (hasCRLF m = true →
      parse (write_error m) ≠ .ok [.simpleError ([69, 82, 82, 32] ++ m)]) := by
  refine ⟨?_, ?_, ?_, ?_⟩
  · intro hd
    have heq : write_bulk_string d = encode (RESPData.bulkString d) := rfl
    rw [heq]
    exact parse_encode_single _ (by simp [wf, hd])
  · intro hds helem
    rw [write_array_eq_encode ds]
    refine parse_encode_single _ ?_
    simp only [wf, Bool.and_eq_true, decide_eq_true_eq, List.length_map]
    exact ⟨hds, wfList_map_bulk ds helem⟩
  · exact parse_write_error_ok m
  · intro hm
    obtain ⟨p, q, rfl, hp⟩ := hasCRLF_split m hm
    exact parse_write_error_crlf_ne p q hp

/-- C9 witness: a bulk string holding CR LF NUL round-trips, a two-element
binary array round-trips, an error message holding a lone CR round-trips to
the simple error carrying the ERR prefix, and an error message holding a
CRLF pair does not parse back to its term. -/
theorem c9_roundtrip_witness :
    parse (write_bulk_string [13, 10, 0]) = .ok [.bulkString [13, 10, 0]] ∧
    parse (write_array [[255, 0], []])
      = .ok [.array [RESPData.bulkString [255, 0], RESPData.bulkString []]] ∧
    parse (write_error [104, 13, 105])
      = .ok [.simpleError ([69, 82, 82, 32] ++ [104, 13, 105])] ∧
    parse (write_error [120, 13, 10, 121])
      ≠ .ok [.simpleError ([69, 82, 82, 32] ++ [120, 13, 10, 121])] := by
  refine ⟨?_, ?_, ?_, ?_⟩
  · exact (c9_roundtrip [13, 10, 0] [] []).1 (by decide)
  · exact (c9_roundtrip [] [[255, 0], []] []).2.1 (by decide) (by decide)
  · exact (c9_roundtrip [] [] [104, 13, 105]).2.2.1 (by decide)
  · exact (c9_roundtrip [] [] [120, 13, 10, 121]).2.2.2 (by decide)

/-- C9 counterexample: the claim as stated quantifies over arbitrary binary
payload bytes, but the error reply produced for the message CR LF does not
feed back to the original term - the parser rejects the produced bytes as
InvalidInput. -/
theorem c9_error_crlf_breaks : parse (write_error [13, 10]) = ParseResult.invalidInput := rfl

/-- EncodedLength from src/parsers/rdb.rs: a decoded size-encoding is either
a length or an inline integer of one of three widths. -/
inductive EncodedLength where
  | length : Nat → EncodedLength
  | u8 : Nat → EncodedLength
  | u16 : Nat → EncodedLength
  | u32 : Nat → EncodedLength
deriving Repr, DecidableEq

/-- Outcome of nom_size_encoding from src/parsers/rdb.rs: a decoded value
with the remaining input, a nom error (insufficient input), or a Rust panic
- the unreachable branches and the unsupported LZF arm both abort. -/
inductive SizeResult where
  | ok : List Nat → EncodedLength → SizeResult
  | err : SizeResult
  | panic : SizeResult
deriving Repr, DecidableEq

/-- nom_size_encoding from src/parsers/rdb.rs: dispatch on the top two bits
of the first byte; 0b00 six-bit length, 0b01 fourteen-bit big-endian length,
0b10 with low bits 0 or 1 a four- or eight-byte big-endian length, 0b11 with
low bits 0, 1 or 2 a little-endian inline integer, 0b11 with low bits 3 the
LZF marker (the source hits this arm with the unimplemented macro, a panic),
and every other combination the unreachable macro (also a panic). -/
def nom_size_encoding (input : List Nat) : SizeResult :=
  match input with
  | [] => .err
  | b :: rest =>
    let t := b / 64
    let d := b % 64
    if t = 0 then .ok rest (.length d)
    else if t = 1 then
      match rest with
      | b2 :: rest2 => .ok rest2 (.length (d * 256 + b2))
      | [] => .err
    else if t = 2 then
      if d = 0 then
        match rest with
        | x0 :: x1 :: x2 :: x3 :: rest2 =>
          .ok rest2 (.length (((x0 * 256 + x1) * 256 + x2) * 256 + x3))
        | _ => .err
      else if d = 1 then
        match rest with
        | x0 :: x1 :: x2 :: x3 :: x4 :: x5 :: x6 :: x7 :: rest2 =>
          .ok rest2 (.length (((((((x0 * 256 + x1) * 256 + x2) * 256 + x3) * 256 + x4)
            * 256 + x5) * 256 + x6) * 256 + x7))
        | _ => .err
      else .panic
    else
      if d = 0 then
        match rest with
        | v :: rest2 => .ok rest2 (.u8 v)
        | [] => .err
      else if d = 1 then
        match rest with
        | x0 :: x1 :: rest2 => .ok rest2 (.u16 (x1 * 256 + x0))
        | _ => .err
      else if d = 2 then
        match rest with
        | x0 :: x1 :: x2 :: x3 :: rest2 =>
          .ok rest2 (.u32 (((x3 * 256 + x2) * 256 + x1) * 256 + x0))
        | _ => .err
      else .panic

/-- C4 (amended): the seven non-LZF size-encoding cases each return the
stated variant with the stated numeric value, consuming exactly the stated
number of bytes; the eighth case, the LZF marker 0xC3, does not return a
variant at all - the decoder aborts through the unimplemented macro. -/
theorem c4_seven_cases (b x x0 x1 x2 x3 x4 x5 x6 x7 : Nat) (rest : List Nat) :
    (b < 64 → nom_size_encoding (b :: rest) = .ok rest (.length b)) ∧
    (64 ≤ b → b < 128 →
      nom_size_encoding (b :: x :: rest) = .ok rest (.length ((b - 64) * 256 + x))) ∧
    (nom_size_encoding (128 :: x0 :: x1 :: x2 :: x3 :: rest)
      = .ok rest (.length (((x0 * 256 + x1) * 256 + x2) * 256 + x3))) ∧
    (nom_size_encoding (129 :: x0 :: x1 :: x2 :: x3 :: x4 :: x5 :: x6 :: x7 :: rest)
      = .ok rest (.length (((((((x0 * 256 + x1) * 256 + x2) * 256 + x3) * 256 + x4)
          * 256 + x5) * 256 + x6) * 256 + x7))) ∧
    (nom_size_encoding (192 :: x :: rest) = .ok rest (.u8 x)) ∧
    (nom_size_encoding (193 :: x0 :: x1 :: rest) = .ok rest (.u16 (x1 * 256 + x0))) ∧
    (nom_size_encoding (194 :: x0 :: x1 :: x2 :: x3 :: rest)
      = .ok rest (.u32 (((x3 * 256 + x2) * 256 + x1) * 256 + x0))) := by
  refine ⟨?_, ?_, ?_, ?_, ?_, ?_, ?_⟩
  · intro hb
    have ht : b / 64 = 0 := Nat.div_eq_of_lt hb
    have hd : b % 64 = b := Nat.mod_eq_of_lt hb
    simp [nom_size_encoding, ht, hd]
  · intro hb1 hb2
    have ht : b / 64 = 1 := by omega
    have hd : b % 64 = b - 64 := by omega
    simp [nom_size_encoding, ht, hd]
  · simp [nom_size_encoding]
  · simp [nom_size_encoding]
  · simp [nom_size_encoding]
  · simp [nom_size_encoding]
  · simp [nom_size_encoding]

/-- C4 witness: one concrete input per proved case, matching the worked
examples in the source comments (e.g. 0x0D gives length 13, the pair
0b01000010 0b10111100 gives length 700, 0xC0 0x7B gives inline u8 123). -/
theorem c4_seven_cases_witness :
    nom_size_encoding [13] = .ok [] (.length 13) ∧
    nom_size_encoding [66, 188] = .ok [] (.length 700) ∧
    nom_size_encoding [128, 0, 0, 66, 104] = .ok [] (.length 17000) ∧
    nom_size_encoding [129, 0, 0, 0, 1, 0, 0, 0, 0] = .ok [] (.length 4294967296) ∧
    nom_size_encoding [192, 123] = .ok [] (.u8 123) ∧
    nom_size_encoding [193, 57, 48] = .ok [] (.u16 12345) ∧
    nom_size_encoding [194, 135, 214, 18, 0] = .ok [] (.u32 1234567) :=
  ⟨(c4_seven_cases 13 0 0 0 0 0 0 0 0 0 ([] : List Nat)).1 (by decide),
   (c4_seven_cases 66 188 0 0 0 0 0 0 0 0 ([] : List Nat)).2.1 (by decide) (by decide),
   (c4_seven_cases 0 0 0 0 66 104 0 0 0 0 ([] : List Nat)).2.2.1,
   (c4_seven_cases 0 0 0 0 0 1 0 0 0 0 ([] : List Nat)).2.2.2.1,
   (c4_seven_cases 0 123 0 0 0 0 0 0 0 0 ([] : List Nat)).2.2.2.2.1,
   (c4_seven_cases 0 0 57 48 0 0 0 0 0 0 ([] : List Nat)).2.2.2.2.2.1,
   (c4_seven_cases 0 0 135 214 18 0 0 0 0 0 ([] : List Nat)).2.2.2.2.2.2⟩

/-- C4 counterexample: on the LZF marker 0xC3, the eighth size-encoding case
of the claim, the decoder does not return any variant with a numeric value -
it hits the unimplemented macro and panics. -/
theorem c4_lzf_panics : nom_size_encoding [195] = SizeResult.panic := rfl

-- ===== Connection layer (src/connection.rs) =====

/-- The "$-1\r\n" null bulk reply constant NULL of src/connection.rs. -/
def NULLB : List Nat := [36, 45, 49, 13, 10]

/-- The "+OK\r\n" reply constant OK of src/connection.rs. -/
def OKB : List Nat := [43, 79, 75, 13, 10]

/-- The "+PONG\r\n" reply written for PING. -/
def PONGB : List Nat := [43, 80, 79, 78, 71, 13, 10]

/-- The "*0\r\n" empty-array reply constant EMPTY_ARRAY of src/connection.rs. -/
def EMPTY_ARRAYB : List Nat := [42, 48, 13, 10]

/-- ASCII bytes of the message "syntax error". -/
def MSG_SYN : List Nat := [115, 121, 110, 116, 97, 120, 32, 101, 114, 114, 111, 114]

/-- ASCII bytes of "value is not an integer or out of range". -/
def MSG_NOTINT : List Nat :=
  [118, 97, 108, 117, 101, 32, 105, 115, 32, 110, 111, 116, 32, 97, 110, 32, 105, 110, 116,
   101, 103, 101, 114, 32, 111, 114, 32, 111, 117, 116, 32, 111, 102, 32, 114, 97, 110, 103, 101]

/-- ASCII bytes of "wrong number of arguments for (q)set(q) command". -/
def MSG_WRONG_SET : List Nat :=
  [119, 114, 111, 110, 103, 32, 110, 117, 109, 98, 101, 114, 32, 111, 102, 32, 97, 114, 103,
   117, 109, 101, 110, 116, 115, 32, 102, 111, 114, 32, 39, 115, 101, 116, 39, 32, 99, 111,
   109, 109, 97, 110, 100]

/-- ASCII bytes of "wrong number of arguments for (q)config(q) command". -/
def MSG_WRONG_CONFIG : List Nat :=
  [119, 114, 111, 110, 103, 32, 110, 117, 109, 98, 101, 114, 32, 111, 102, 32, 97, 114, 103,
   117, 109, 101, 110, 116, 115, 32, 102, 111, 114, 32, 39, 99, 111, 110, 102, 105, 103, 39,
   32, 99, 111, 109, 109, 97, 110, 100]

/-- ASCII bytes of "wrong number of arguments for (q)config|get(q) command". -/
def MSG_WRONG_CONFIG_GET : List Nat :=
  [119, 114, 111, 110, 103, 32, 110, 117, 109, 98, 101, 114, 32, 111, 102, 32, 97, 114, 103,
   117, 109, 101, 110, 116, 115, 32, 102, 111, 114, 32, 39, 99, 111, 110, 102, 105, 103, 124,
   103, 101, 116, 39, 32, 99, 111, 109, 109, 97, 110, 100]

/-- DBValue from src/database.rs as src/connection.rs uses it: the stored
bytes and the optional absolute expiry in milliseconds. -/
structure DBValue where
  value : List Nat
  ttl : Option Nat
deriving Repr, DecidableEq

/-- Keyspace 0 as the handlers see it: a finite map from byte keys to
DBValue, modelled as an association list without duplicate keys. -/
abbrev KV := List (List Nat × DBValue)

/-- HashMap::get - the first (only) binding of the key. -/
def dbGet (db : KV) (k : List Nat) : Option DBValue :=
  match db with
  | [] => none
  | (k2, v) :: rest => if k2 = k then some v else dbGet rest k

/-- HashMap::contains_key. -/
def dbContains (db : KV) (k : List Nat) : Bool := (dbGet db k).isSome

/-- HashMap::insert - replace the binding if present, else append. -/
def dbInsert (db : KV) (k : List Nat) (v : DBValue) : KV :=
  match db with
  | [] => [(k, v)]
  | (k2, v2) :: rest => if k2 = k then (k, v) :: rest else (k2, v2) :: dbInsert rest k v

/-- HashMap::remove. -/
def dbRemove (db : KV) (k : List Nat) : KV :=
  match db with
  | [] => []
  | (k2, v2) :: rest => if k2 = k then rest else (k2, v2) :: dbRemove rest k

/-- to_ascii_uppercase on a byte string. -/
def upper (s : List Nat) : List Nat :=
  s.map fun b => if 97 ≤ b ∧ b ≤ 122 then b - 32 else b

/-- Rust str::parse::<u128> applied to from_utf8_lossy of the raw bytes, as
parse_u128_arg in src/connection.rs does: an optional leading plus sign,
then one or more ASCII digits, value below 2^128; anything else fails. -/
def parse_u128 (raw : List Nat) : Option Nat :=
  let s := if raw.head? = some 43 then raw.tail else raw
  if s ≠ [] ∧ s.all isDigit ∧ digitsVal s < 2 ^ 128 then some (digitsVal s) else none

/-- The option flags accumulated by the while-let loop of handle_set. -/
structure SetOpts where
  ttl : Option Nat
  nx : Bool
  xx : Bool
  keepTtl : Bool
deriving Repr, DecidableEq

/-- Result of the option loop: the flags, or an early ClientError return. -/
inductive OptsResult where
  | ok : SetOpts → OptsResult
  | clientError : List Nat → OptsResult
deriving Repr, DecidableEq

/-- The while-let option loop of handle_set in src/connection.rs.  The loop
ends when the iterator is exhausted or yields a non-bulk item; EX, PX, EXAT
and PXAT reject a second time option as a syntax error, pull the next item
as their integer argument, and record the absolute deadline; an unknown
token is a syntax error. -/
def setOptsLoop (now : Nat) : List RESPData → SetOpts → OptsResult
  | [], o => .ok o
  | .bulkString arg :: rest, o =>
    let u := upper arg
    if u = [78, 88] then setOptsLoop now rest { o with nx := true }
    else if u = [88, 88] then setOptsLoop now rest { o with xx := true }
    else if u = [69, 88] then
      if o.ttl.isSome then .clientError MSG_SYN
      else
        match rest with
        | .bulkString raw :: rest2 =>
          match parse_u128 raw with
          | some v => setOptsLoop now rest2 { o with ttl := some (now + v * 1000) }
          | none => .clientError MSG_NOTINT
        | _ => .clientError MSG_SYN
    else if u = [80, 88] then
      if o.ttl.isSome then .clientError MSG_SYN
      else
        match rest with
        | .bulkString raw :: rest2 =>
          match parse_u128 raw with
          | some v => setOptsLoop now rest2 { o with ttl := some (now + v) }
          | none => .clientError MSG_NOTINT
        | _ => .clientError MSG_SYN
    else if u = [69, 88, 65, 84] then
      if o.ttl.isSome then .clientError MSG_SYN
      else
        match rest with
        | .bulkString raw :: rest2 =>
          match parse_u128 raw with
          | some v => setOptsLoop now rest2 { o with ttl := some (v * 1000) }
          | none => .clientError MSG_NOTINT
        | _ => .clientError MSG_SYN
    else if u = [80, 88, 65, 84] then
      if o.ttl.isSome then .clientError MSG_SYN
      else
        match rest with
        | .bulkString raw :: rest2 =>
          match parse_u128 raw with
          | some v => setOptsLoop now rest2 { o with ttl := some v }
          | none => .clientError MSG_NOTINT
        | _ => .clientError MSG_SYN
    else if u = [75, 69, 69, 80, 84, 84, 76] then
      setOptsLoop now rest { o with keepTtl := true }
    else .clientError MSG_SYN
  | _ :: _, o => .ok o

/-- Outcome of one command handler: a reply written to the stream, a
ClientError carried up to process_event, a fatal non-client error, or a Rust
panic from a todo or unimplemented macro. -/
inductive HOutcome where
  | ok : List Nat → HOutcome
  | clientError : List Nat → HOutcome
  | fatal : HOutcome
  | panic : HOutcome
deriving Repr, DecidableEq

/-- A handler outcome together with the keyspace it leaves behind. -/
structure HResult where
  outcome : HOutcome
  db : KV
deriving Repr, DecidableEq

/-- handle_get from src/connection.rs: exactly one bulk argument (anything
else hits a todo macro); a present key whose deadline is strictly before now
answers the null bulk and is removed; otherwise the value is written as a
bulk string; an absent key answers the null bulk. -/
def handle_get (db : KV) (now : Nat) (args : List RESPData) : HResult :=
  match args with
  | [.bulkString key] =>
    match dbGet db key with
    | some v =>
      match v.ttl with
      | some ttl =>
        if ttl < now then ⟨.ok NULLB, dbRemove db key⟩
        else ⟨.ok (write_bulk_string v.value), db⟩
      | none => ⟨.ok (write_bulk_string v.value), db⟩
    | none => ⟨.ok NULLB, db⟩
  | _ => ⟨.panic, db⟩

/-- handle_set from src/connection.rs: key and value must be bulk strings,
then the option loop runs; NX with XX is a syntax error; an NX hit or an XX
miss answers the null bulk without modification; with KEEPTTL on an existing
key the old expiry replaces whatever the options computed; finally the entry
is inserted and +OK written. -/
def handle_set (db : KV) (now : Nat) (args : List RESPData) : HResult :=
  match args with
  | .bulkString key :: .bulkString value :: opts =>
    match setOptsLoop now opts ⟨none, false, false, false⟩ with
    | .clientError m => ⟨.clientError m, db⟩
    | .ok o =>
      if o.nx && o.xx then ⟨.clientError MSG_SYN, db⟩
      else if o.nx && dbContains db key then ⟨.ok NULLB, db⟩
      else if o.xx && !dbContains db key then ⟨.ok NULLB, db⟩
      else
        let ttl2 := if o.keepTtl then
            match dbGet db key with
            | some old => old.ttl
            | none => o.ttl
          else o.ttl
        ⟨.ok OKB, dbInsert db key ⟨value, ttl2⟩⟩
  | _ => ⟨.clientError MSG_WRONG_SET, db⟩

/-- handle_echo from src/connection.rs: one bulk argument echoed back as a
simple string; any other shape hits a todo macro. -/
def handle_echo (db : KV) (args : List RESPData) : HResult :=
  match args with
  | [.bulkString msg] => ⟨.ok (43 :: (msg ++ CRLFB)), db⟩
  | _ => ⟨.panic, db⟩

/-- The runtime configuration fields CONFIG GET can reach. -/
structure MConfig where
  dir : List Nat
  dbfilename : List Nat
deriving Repr, DecidableEq

/-- handle_config_get from src/connection.rs: DBFILENAME and DIR answer a
two-element array, any other recognized shape the empty array; a missing or
non-bulk name is a ClientError. -/
def handle_config_get (cfg : MConfig) (db : KV) (args : List RESPData) : HResult :=
  match args with
  | .bulkString key :: _ =>
    let u := upper key
    if u = [68, 66, 70, 73, 76, 69, 78, 65, 77, 69] then
      ⟨.ok (write_array [[100, 98, 102, 105, 108, 101, 110, 97, 109, 101], cfg.dbfilename]), db⟩
    else if u = [68, 73, 82] then
      ⟨.ok (write_array [[100, 105, 114], cfg.dir]), db⟩
    else ⟨.ok EMPTY_ARRAYB, db⟩
  | _ => ⟨.clientError MSG_WRONG_CONFIG_GET, db⟩

/-- handle_config from src/connection.rs: GET dispatches to
handle_config_get, SET reaches handle_config_set whose body is a todo macro,
any other subcommand is itself a todo macro; a missing or non-bulk
subcommand is a ClientError. -/
def handle_config (cfg : MConfig) (db : KV) (args : List RESPData) : HResult :=
  match args with
  | .bulkString sub :: rest =>
    let u := upper sub
    if u = [71, 69, 84] then handle_config_get cfg db rest
    else if u = [83, 69, 84] then ⟨.panic, db⟩
    else ⟨.panic, db⟩
  | _ => ⟨.clientError MSG_WRONG_CONFIG, db⟩

/-- process_array from src/connection.rs: dispatch on the uppercased first
bulk element; PING, COMMAND and CLIENT write fixed replies, the rest go to
their handlers; an unrecognized command name, an empty array and a non-bulk
head all hit todo macros. -/
def process_array (cfg : MConfig) (db : KV) (now : Nat) (array : List RESPData) : HResult :=
  match array with
  | .bulkString s :: rest =>
    let u := upper s
    if u = [80, 73, 78, 71] then ⟨.ok PONGB, db⟩
    else if u = [67, 79, 77, 77, 65, 78, 68] then ⟨.ok OKB, db⟩
    else if u = [69, 67, 72, 79] then handle_echo db rest
    else if u = [83, 69, 84] then handle_set db now rest
    else if u = [71, 69, 84] then handle_get db now rest
    else if u = [67, 79, 78, 70, 73, 71] then handle_config cfg db rest
    else if u = [67, 76, 73, 69, 78, 84] then ⟨.ok OKB, db⟩
    else ⟨.panic, db⟩
  | _ => ⟨.panic, db⟩

/-- process_simple_string from src/connection.rs: the exact bytes PING get
+PONG; anything else is the fatal UnknownCommand error. -/
def process_simple_string (db : KV) (s : List Nat) : HResult :=
  if s = [80, 73, 78, 71] then ⟨.ok PONGB, db⟩ else ⟨.fatal, db⟩

/-- The per-term dispatch of process_input in src/connection.rs: simple
strings and arrays are handled, every other term kind hits a todo macro. -/
def processData (cfg : MConfig) (db : KV) (now : Nat) : RESPData → HResult
  | .simpleString s => process_simple_string db s
  | .array a => process_array cfg db now a
  | _ => ⟨.panic, db⟩

/-- What process_event in src/connection.rs does with a handler outcome: a
written reply keeps the connection, a ClientError is written back as
"-ERR " message CRLF and keeps the connection, any other error drops the
connection; a panic aborts the process. -/
inductive ConnFate where
  | reply : List Nat → ConnFate
  | dropped : ConnFate
  | aborted : ConnFate
deriving Repr, DecidableEq

/-- The error partition of process_event (src/connection.rs lines 89-108)
applied to one handler outcome. -/
def settle : HOutcome → ConnFate
  | .ok out => .reply out
  | .clientError m => .reply ([45, 69, 82, 82, 32] ++ (m ++ CRLFB))
  | .fatal => .dropped
  | .panic => .aborted

theorem parse_u128_natToDigits (d : Nat) (hd : d < 2 ^ 128) :
    parse_u128 (natToDigits d) = some d := by
  obtain ⟨hdig, hne, hv⟩ := natToDigits_spec d
  obtain ⟨b, bs, hcons⟩ := List.exists_cons_of_ne_nil hne
  have hb : isDigit b = true := hdig b (by rw [hcons]; exact List.mem_cons_self b bs)
  have hb43 : ¬(b = 43) := by
    simp only [isDigit, Bool.and_eq_true, decide_eq_true_eq] at hb
    omega
  rw [parse_u128, hcons]
  simp only [List.head?_cons, Option.some.injEq, if_neg hb43, List.all_eq_true]
  rw [if_pos]
  · rw [← hcons, hv]
  · refine ⟨by simp, fun x hx => hdig x (by rw [hcons]; exact hx), ?_⟩
    rw [← hcons, hv]
    exact hd

/-- C1: for a key stored with value v and an expiry deadline, GET at a wall
clock not past the deadline replies with the bulk string of v and leaves the
keyspace unchanged; GET when the deadline is strictly less than the wall
clock replies with the null bulk and removes the entry; GET of an absent key
replies with the null bulk. -/
theorem c1_get_expiry (db : KV) (now : Nat) (k : List Nat) :
    (∀ v e, dbGet db k = some ⟨v, some e⟩ → now ≤ e →
      handle_get db now [.bulkString k] = ⟨.ok (write_bulk_string v), db⟩) ∧
    (∀ v e, dbGet db k = some ⟨v, some e⟩ → e < now →
      handle_get db now [.bulkString k] = ⟨.ok NULLB, dbRemove db k⟩) ∧
    (dbGet db k = none → handle_get db now [.bulkString k] = ⟨.ok NULLB, db⟩) := by
  refine ⟨?_, ?_, ?_⟩
  · intro v e h hle
    simp [handle_get, h, Nat.not_lt.mpr hle]
  · intro v e h hlt
    simp [handle_get, h, hlt]
  · intro h
    simp [handle_get, h]

/-- C1 witness: with key 107 stored as value 118 expiring at 100, GET at
clock 100 answers the value, GET at clock 101 answers the null bulk and
empties the keyspace, and GET of key 107 in an empty keyspace answers the
null bulk. -/
theorem c1_get_expiry_witness :
    handle_get [([107], ⟨[118], some 100⟩)] 100 [.bulkString [107]]
      = ⟨.ok (write_bulk_string [118]), [([107], ⟨[118], some 100⟩)]⟩ ∧
    handle_get [([107], ⟨[118], some 100⟩)] 101 [.bulkString [107]]
      = ⟨.ok NULLB, []⟩ ∧
    handle_get [] 0 [.bulkString [107]] = ⟨.ok NULLB, []⟩ :=
  ⟨(c1_get_expiry [([107], ⟨[118], some 100⟩)] 100 [107]).1 [118] 100 rfl (by decide),
   (c1_get_expiry [([107], ⟨[118], some 100⟩)] 101 [107]).2.1 [118] 100 rfl (by decide),
   (c1_get_expiry [] 0 [107]).2.2 rfl⟩

/-- C6 (amended): NX tests raw presence of the key in the map without
consulting the expiry: SET k v NX stores v and answers +OK exactly when k is
absent from the map; when k is present - even with an already-passed expiry
deadline - it answers the null bulk and leaves the keyspace unchanged. -/
theorem c6_nx_raw_presence (db : KV) (now : Nat) (k v : List Nat) :
    (dbContains db k = true →
      handle_set db now [.bulkString k, .bulkString v, .bulkString [78, 88]]
        = ⟨.ok NULLB, db⟩) ∧
    (dbContains db k = false →
      handle_set db now [.bulkString k, .bulkString v, .bulkString [78, 88]]
        = ⟨.ok OKB, dbInsert db k ⟨v, none⟩⟩) := by
  constructor <;> intro h <;> simp [handle_set, setOptsLoop, upper, h]

/-- C6 witness: NX on a present key answers null without modification, NX on
an absent key stores the value with no expiry and answers +OK. -/
theorem c6_nx_raw_presence_witness :
    handle_set [([1], ⟨[2], none⟩)] 0 [.bulkString [1], .bulkString [3], .bulkString [78, 88]]
      = ⟨.ok NULLB, [([1], ⟨[2], none⟩)]⟩ ∧
    handle_set [] 0 [.bulkString [1], .bulkString [3], .bulkString [78, 88]]
      = ⟨.ok OKB, [([1], ⟨[3], none⟩)]⟩ :=
  ⟨(c6_nx_raw_presence [([1], ⟨[2], none⟩)] 0 [1] [3]).1 rfl,
   (c6_nx_raw_presence [] 0 [1] [3]).2 rfl⟩

/-- C6 counterexample: key 107 is stored with expiry 5 and the clock is 10,
so its deadline has passed; the claim expects SET k v NX to store and answer
+OK, but the handler answers the null bulk and stores nothing. -/
theorem c6_nx_expired_eval :
    handle_set [([107], ⟨[119], some 5⟩)] 10
      [.bulkString [107], .bulkString [118], .bulkString [78, 88]]
      = ⟨.ok NULLB, [([107], ⟨[119], some 5⟩)]⟩ ∧ NULLB ≠ OKB :=
  ⟨rfl, by decide⟩

/-- The four explicit time options of SET. -/
inductive TimeOpt where
  | ex | px | exat | pxat
deriving Repr, DecidableEq

/-- The uppercase token bytes of each time option. -/
def timeOptToken : TimeOpt → List Nat
  | .ex => [69, 88]
  | .px => [80, 88]
  | .exat => [69, 88, 65, 84]
  | .pxat => [80, 88, 65, 84]

/-- C5 (amended): when KEEPTTL accompanies any one explicit time option (EX,
PX, EXAT or PXAT) on a key that already exists, the implementation neither
rejects the combination nor lets the explicit option win: the stored expiry
after the command is the existing entry's old expiry.  (The explicit value
applies only when the key is absent.) -/
theorem c5_old_ttl_wins (o : TimeOpt) (db : KV) (now : Nat) (k v : List Nat) (d : Nat)
    (old : DBValue) (hd : d < 2 ^ 128) (hk : dbGet db k = some old) :
    handle_set db now [.bulkString k, .bulkString v, .bulkString (timeOptToken o),
      .bulkString (natToDigits d), .bulkString [75, 69, 69, 80, 84, 84, 76]]
      = ⟨.ok OKB, dbInsert db k ⟨v, old.ttl⟩⟩ := by
  have hp := parse_u128_natToDigits d hd
  cases o <;>
    simp [handle_set, setOptsLoop, timeOptToken, upper, hp, hk, dbContains]

/-- C5 witness: SET k v EX 2 KEEPTTL at clock 1 on a key holding expiry 77
stores the old expiry 77, not 1 + 2000. -/
theorem c5_old_ttl_wins_witness :
    handle_set [([107], ⟨[5], some 77⟩)] 1
      [.bulkString [107], .bulkString [9], .bulkString [69, 88], .bulkString (natToDigits 2),
       .bulkString [75, 69, 69, 80, 84, 84, 76]]
      = ⟨.ok OKB, [([107], ⟨[9], some 77⟩)]⟩ :=
  c5_old_ttl_wins .ex [([107], ⟨[5], some 77⟩)] 1 [107] [9] 2 ⟨[5], some 77⟩
    (by decide) rfl

/-- C5 counterexample: SET k v EX 10 KEEPTTL at clock 1000 on an existing
key without expiry.  The claim requires the stored expiry to be the explicit
1000 + 10 * 1000 = 11000 (or the command rejected as a syntax error); the
handler instead answers +OK and stores the inherited old expiry, none. -/
theorem c5_keepttl_overrides_eval :
    handle_set [([107], ⟨[111], none⟩)] 1000
      [.bulkString [107], .bulkString [118], .bulkString [69, 88], .bulkString [49, 48],
       .bulkString [75, 69, 69, 80, 84, 84, 76]]
      = ⟨.ok OKB, [([107], ⟨[118], none⟩)]⟩ ∧ (none : Option Nat) ≠ some 11000 :=
  ⟨rfl, by decide⟩

/-- C7 (amended): a handler outcome falls in exactly four classes - success
with a reply written, ClientError written back as "-ERR " message CRLF with
the connection preserved, a fatal error that drops only that connection, or
a panic from a todo macro that aborts the whole process; in particular GET
with zero arguments, ECHO with a non-bulk argument, and CONFIG SET all
panic. -/
theorem c7_outcome_classes (cfg : MConfig) (db : KV) (now : Nat) (t : RESPData) :
    ((∃ out, (processData cfg db now t).outcome = .ok out ∧
        settle (processData cfg db now t).outcome = .reply out) ∨
     (∃ m, (processData cfg db now t).outcome = .clientError m ∧
        settle (processData cfg db now t).outcome
          = .reply ([45, 69, 82, 82, 32] ++ (m ++ CRLFB))) ∨
     ((processData cfg db now t).outcome = .fatal ∧
        settle (processData cfg db now t).outcome = .dropped) ∨
     ((processData cfg db now t).outcome = .panic ∧
        settle (processData cfg db now t).outcome = .aborted)) ∧
    (process_array cfg db now [.bulkString [71, 69, 84]]).outcome = .panic ∧
    (process_array cfg db now
      [.bulkString [69, 67, 72, 79], .array []]).outcome = .panic ∧
    (process_array cfg db now
      [.bulkString [67, 79, 78, 70, 73, 71], .bulkString [83, 69, 84]]).outcome = .panic := by
  refine ⟨?_, ?_, ?_, ?_⟩
  · cases h : (processData cfg db now t).outcome with
    | ok out => exact Or.inl ⟨out, rfl, rfl⟩
    | clientError m => exact Or.inr (Or.inl ⟨m, rfl, rfl⟩)
    | fatal => exact Or.inr (Or.inr (Or.inl ⟨rfl, rfl⟩))
    | panic => exact Or.inr (Or.inr (Or.inr ⟨rfl, rfl⟩))
  · simp [process_array, upper, handle_get]
  · simp [process_array, upper, handle_echo]
  · simp [process_array, upper, handle_config]

/-- C7 counterexample: GET with zero arguments reaches a todo macro - a Rust
panic that aborts the process - contradicting the claim that the outcome of
every parsed term falls into the three non-aborting classes. -/
theorem c7_get_no_args_panics :
    (process_array ⟨[], []⟩ [] 0 [.bulkString [71, 69, 84]]).outcome = HOutcome.panic := rfl

-- ===== RDB loader (src/parsers/rdb.rs and src/database.rs) =====

/-- The RDB opcodes of src/parsers/rdb.rs. -/
inductive OpCode where
  | eof | selectdb | expiretime | expiretimems | resizedb | aux
deriving Repr, DecidableEq

/-- The RDB value-type bytes of src/parsers/rdb.rs. -/
inductive ValueTypeEncoding where
  | string | list | set | sortedSet | hash | zipmap | ziplist | intset
  | sortedSetInZiplist | hashmapInZiplist | listInQuicklist
deriving Repr, DecidableEq

/-- ParsedOpCodeOrValueType from src/parsers/rdb.rs. -/
inductive ParsedOpCodeOrValueType where
  | opCode : OpCode → ParsedOpCodeOrValueType
  | valueType : ValueTypeEncoding → ParsedOpCodeOrValueType
deriving Repr, DecidableEq

/-- nom_opcode_or_value_type from src/parsers/rdb.rs: value types first
(0x00-0x04 and 0x09-0x0E), then the opcodes 0xFA-0xFF; any other byte is a
nom error. -/
def nom_opcode_or_value_type (input : List Nat) :
    Option (List Nat × ParsedOpCodeOrValueType) :=
  match input with
  | [] => none
  | b :: rest =>
    if b = 0 then some (rest, .valueType .string)
    else if b = 1 then some (rest, .valueType .list)
    else if b = 2 then some (rest, .valueType .set)
    else if b = 3 then some (rest, .valueType .sortedSet)
    else if b = 4 then some (rest, .valueType .hash)
    else if b = 9 then some (rest, .valueType .zipmap)
    else if b = 10 then some (rest, .valueType .ziplist)
    else if b = 11 then some (rest, .valueType .intset)
    else if b = 12 then some (rest, .valueType .sortedSetInZiplist)
    else if b = 13 then some (rest, .valueType .hashmapInZiplist)
    else if b = 14 then some (rest, .valueType .listInQuicklist)
    else if b = 250 then some (rest, .opCode .aux)
    else if b = 251 then some (rest, .opCode .resizedb)
    else if b = 252 then some (rest, .opCode .expiretimems)
    else if b = 253 then some (rest, .opCode .expiretime)
    else if b = 254 then some (rest, .opCode .selectdb)
    else if b = 255 then some (rest, .opCode .eof)
    else none

/-- EncodedString from src/parsers/rdb.rs. -/
inductive EncodedString where
  | str : List Nat → EncodedString
  | u8 : Nat → EncodedString
  | u16 : Nat → EncodedString
  | u32 : Nat → EncodedString
deriving Repr, DecidableEq

/-- Outcome of nom_size_encoded_string: a value with the remaining input, a
nom error, or a panic inherited from the size decoder. -/
inductive StrResult where
  | ok : List Nat → EncodedString → StrResult
  | err : StrResult
  | panic : StrResult
deriving Repr, DecidableEq

/-- nom_size_encoded_string from src/parsers/rdb.rs: decode a size encoding;
a Length takes that many raw bytes, the inline integers pass through. -/
def nom_size_encoded_string (input : List Nat) : StrResult :=
  match nom_size_encoding input with
  | .ok rest (.length l) =>
    if l ≤ rest.length then .ok (rest.drop l) (.str (rest.take l)) else .err
  | .ok rest (.u8 v) => .ok rest (.u8 v)
  | .ok rest (.u16 v) => .ok rest (.u16 v)
  | .ok rest (.u32 v) => .ok rest (.u32 v)
  | .err => .err
  | .panic => .panic

/-- nom_le_int from src/parsers/rdb.rs: little-endian 4-byte unsigned. -/
def nom_le_int (input : List Nat) : Option (List Nat × Nat) :=
  match input with
  | x0 :: x1 :: x2 :: x3 :: rest =>
    some (rest, ((x3 * 256 + x2) * 256 + x1) * 256 + x0)
  | _ => none

/-- nom_le_long from src/parsers/rdb.rs: little-endian 8-byte unsigned. -/
def nom_le_long (input : List Nat) : Option (List Nat × Nat) :=
  match input with
  | x0 :: x1 :: x2 :: x3 :: x4 :: x5 :: x6 :: x7 :: rest =>
    some (rest, ((((((x7 * 256 + x6) * 256 + x5) * 256 + x4) * 256 + x3) * 256 + x2)
      * 256 + x1) * 256 + x0)
  | _ => none

/-- HashMap::insert for a byte-keyed association list. -/
def mapInsert {A : Type} (m : List (List Nat × A)) (k : List Nat) (v : A) :
    List (List Nat × A) :=
  match m with
  | [] => [(k, v)]
  | (k2, v2) :: rest => if k2 = k then (k, v) :: rest else (k2, v2) :: mapInsert rest k v

/-- HashMap::get for a byte-keyed association list. -/
def mapGet {A : Type} (m : List (List Nat × A)) (k : List Nat) : Option A :=
  match m with
  | [] => none
  | (k2, v) :: rest => if k2 = k then some v else mapGet rest k

/-- Insert into the i-th map of a vector of maps (get_mut(i).unwrap() with
the insert; the caller guards i against the vector length). -/
def insertAt {A : Type} (ms : List (List (List Nat × A))) (i : Nat) (k : List Nat) (v : A) :
    List (List (List Nat × A)) :=
  ms.set i (mapInsert (ms.getD i []) k v)

/-- The mutable state threaded through the load_rdb loop of src/database.rs:
the 16 databases, the 16 expiry maps, the selected database index, and the
pending-expiry slot key_expiry. -/
structure RdbState where
  dbs : List (List (List Nat × List Nat))
  exps : List (List (List Nat × Nat))
  dbNum : Nat
  keyExpiry : Option Nat
deriving Repr, DecidableEq

/-- Outcome of load_rdb: the final databases and expiry maps on Ok, the Err
of a propagated parse failure, or a Rust panic (unwrap, unimplemented). -/
inductive LoadOutcome where
  | ok : List (List (List Nat × List Nat)) → List (List (List Nat × Nat)) → LoadOutcome
  | err : LoadOutcome
  | panic : LoadOutcome
deriving Repr, DecidableEq

/-- The record loop of load_rdb in src/database.rs.  A nom failure on the
opcode-or-value-type read logs and breaks (returning Ok with what was
loaded); EOF breaks; SELECTDB switches the index (a non-Length encoding
breaks); RESIZEDB reads and discards two size encodings (reserve only);
EXPIRETIME and EXPIRETIMEMS fill the pending-expiry slot - which is never
cleared afterwards; AUX reads a metadata pair with unwrap; a String record
reads key and value, silently skips the record when a pending expiry is in
the past, and otherwise inserts the expiry (when pending) and the value into
the selected maps; any other value type hits the unimplemented macro. -/
def loadLoop : Nat → Nat → RdbState → List Nat → LoadOutcome
  | 0, _, _, _ => .err
  | fuel + 1, now, st, input =>
    match nom_opcode_or_value_type input with
    | none => .ok st.dbs st.exps
    | some (_, .opCode .eof) => .ok st.dbs st.exps
    | some (rest, .opCode .selectdb) =>
      match nom_size_encoding rest with
      | .ok rest2 (.length n) => loadLoop fuel now { st with dbNum := n } rest2
      | .ok _ _ => .ok st.dbs st.exps
      | .err => .err
      | .panic => .panic
    | some (rest, .opCode .resizedb) =>
      match nom_size_encoding rest with
      | .ok rest2 _ =>
        if st.dbNum < st.dbs.length then
          match nom_size_encoding rest2 with
          | .ok rest3 _ =>
            if st.dbNum < st.exps.length then loadLoop fuel now st rest3 else .panic
          | .err => .err
          | .panic => .panic
        else .panic
      | .err => .err
      | .panic => .panic
    | some (rest, .opCode .expiretime) =>
      match nom_le_int rest with
      | some (rest2, v) => loadLoop fuel now { st with keyExpiry := some (v * 1000) } rest2
      | none => .err
    | some (rest, .opCode .expiretimems) =>
      match nom_le_long rest with
      | some (rest2, v) => loadLoop fuel now { st with keyExpiry := some v } rest2
      | none => .err
    | some (rest, .opCode .aux) =>
      match nom_size_encoded_string rest with
      | .ok rest2 (.str _) =>
        match nom_size_encoded_string rest2 with
        | .ok rest3 _ => loadLoop fuel now st rest3
        | _ => .panic
      | .ok _ _ => .panic
      | _ => .panic
    | some (rest, .valueType .string) =>
      match nom_size_encoded_string rest with
      | .ok rest2 (.str key) =>
        match nom_size_encoded_string rest2 with
        | .ok rest3 (.str value) =>
          match st.keyExpiry with
          | some e =>
            if e < now then loadLoop fuel now st rest3
            else
              if st.dbNum < st.exps.length ∧ st.dbNum < st.dbs.length then
                loadLoop fuel now
                  { st with
                    exps := insertAt st.exps st.dbNum key e,
                    dbs := insertAt st.dbs st.dbNum key value } rest3
              else .panic
          | none =>
            if st.dbNum < st.dbs.length then
              loadLoop fuel now { st with dbs := insertAt st.dbs st.dbNum key value } rest3
            else .panic
        | .ok _ _ => .panic
        | .err => .err
        | .panic => .panic
      | .ok _ _ => .panic
      | .err => .err
      | .panic => .panic
    | some (_, .valueType _) => .panic

/-- load_rdb from src/database.rs: clear all 16 databases and expiry maps,
read the REDIS magic (a nom failure is a propagated Err), parse the 4-byte
version with unwrap (a panic on a non-numeric or overflowing version), then
run the record loop starting at database 0 with an empty pending-expiry
slot. -/
def load_rdb (now : Nat) (file : List Nat) : LoadOutcome :=
  match file with
  | 82 :: 69 :: 68 :: 73 :: 83 :: a :: b :: c :: d :: rest =>
    match parse_u128 [a, b, c, d] with
    | some v =>
      if v < 65536 then
        loadLoop (rest.length + 1) now
          ⟨List.replicate 16 [], List.replicate 16 [], 0, none⟩ rest
      else .panic
    | none => .panic
  | _ => .err

/-- C2: evaluation of the loader at the failing input.  The snapshot stream
is REDIS0011, then EXPIRETIME_MS with deadline 5000, then String record R1
(key 97, value 120), then String record R2 (key 98, value 121) with no
expiry opcode in between, then EOF.  The claim requires R2 to be inserted
with no expiry attached; the loader never clears the pending-expiry slot, so
at clock 1000 the stale deadline 5000 is attached to key 98 as well - and
with a past deadline (500, second conjunct) record R2 is not inserted at
all: the stale slot silently drops every later record. -/
theorem c2_sticky_expiry_eval :
    load_rdb 1000 ([82, 69, 68, 73, 83, 48, 48, 49, 49] ++ [252]
        ++ [136, 19, 0, 0, 0, 0, 0, 0] ++ [0, 1, 97, 1, 120] ++ [0, 1, 98, 1, 121] ++ [255])
      = LoadOutcome.ok ([([97], [120]), ([98], [121])] :: List.replicate 15 [])
          ([([97], 5000), ([98], 5000)] :: List.replicate 15 []) ∧
    load_rdb 1000 ([82, 69, 68, 73, 83, 48, 48, 49, 49] ++ [252]
        ++ [244, 1, 0, 0, 0, 0, 0, 0] ++ [0, 1, 97, 1, 120] ++ [0, 1, 98, 1, 121] ++ [255])
      = LoadOutcome.ok (List.replicate 16 []) (List.replicate 16 []) :=
  ⟨rfl, rfl⟩

/-- C8 (amended): when the loader meets a non-String value-type byte it does
not surface a clean result at all - it hits the unimplemented macro, a
panic that aborts the process. -/
theorem c8_nonstring_panics (b now : Nat) (rest : List Nat)
    (hb : b ∈ [1, 2, 3, 4, 9, 10, 11, 12, 13, 14]) :
    load_rdb now ([82, 69, 68, 73, 83, 48, 48, 49, 49] ++ b :: rest)
      = LoadOutcome.panic := by
  fin_cases hb <;>
    simp [load_rdb, parse_u128, digitsVal, isDigit, loadLoop, nom_opcode_or_value_type]

/-- C8 witness: a snapshot whose first record byte is the Set value type
makes the load panic. -/
theorem c8_nonstring_panics_witness :
    load_rdb 0 ([82, 69, 68, 73, 83, 48, 48, 49, 49] ++ 2 :: []) = LoadOutcome.panic :=
  c8_nonstring_panics 2 0 [] (by decide)

/-- C8 counterexample: a snapshot carrying a List value-type byte does not
abort cleanly or fail the load - the loader panics, crashing the server
process, contrary to the claim. -/
theorem c8_list_type_panics_eval :
    load_rdb 0 ([82, 69, 68, 73, 83, 48, 48, 49, 49] ++ [1]) = LoadOutcome.panic := rfl

-- ===== Event loop (src/server.rs) =====

/-- A readiness flag as poll reports it for one descriptor. -/
inductive PollEvent where
  | pollin | other
deriving Repr, DecidableEq

/-- process_existing_connections from src/server.rs: drain exactly the first
polled_count connections, zip them with their readiness flags, keep the
survivors the per-connection step returns (the connection type and the
socket-reading step are abstract here: the source's closure reads the socket
and returns None to drop the connection), and chain what remains of the
connection list - the connections accepted this iteration - behind the
survivors. -/
def process_existing_connections {A : Type} (step : A → Option PollEvent → Option A)
    (conns : List A) (events : List (Option PollEvent)) (polled_count : Nat) : List A :=
  ((conns.take polled_count).zip events).filterMap (fun p => step p.1 p.2)
    ++ conns.drop polled_count

/-- run_once from src/server.rs: record polled_count from the connection
list before anything else, build and poll the readiness vector (the events
list, one flag per polled connection), accept new connections onto the tail
of the list when the listener is ready, then process the first polled_count
entries. -/
def run_once {A : Type} (step : A → Option PollEvent → Option A)
    (conns accepted : List A) (listenerReady : Bool)
    (events : List (Option PollEvent)) : List A :=
  let polled_count := conns.length
  let afterAccept := if listenerReady then conns ++ accepted else conns
  process_existing_connections step afterAccept events polled_count

/-- C10: in every iteration only the polled_count connections that existed
when the iteration began are processed, the i-th zipped with its own i-th
readiness flag; connections accepted during the iteration are not polled
this iteration; and the list after the iteration is the surviving polled
connections followed by the newly accepted ones, preserving arrival order. -/
theorem c10_poll_discipline {A : Type} (step : A → Option PollEvent → Option A)
    (conns accepted : List A) (lr : Bool) (events : List (Option PollEvent)) :
    run_once step conns accepted lr events
      = ((conns.zip events).filterMap fun p => step p.1 p.2)
        ++ (if lr then accepted else []) := by
  cases lr <;>
    simp [run_once, process_existing_connections, take_append_length, drop_append_length]

end Rustis
